import Mathlib

/-!
Shallow embedding of the A3-to-A4 PDF splitter (`services/pdfService.ts`,
`types.ts`) and of the preview arithmetic in `App.tsx`, together with
theorems about the splitting, numbering and progress behaviour.

Modelling conventions:
* PDF pages carry their media-box dimensions in points as rationals.
* `setCropBox(x, y, width, height)` is recorded as a `Rect` on the output
  page; `page.getSize()` in pdf-lib returns the media-box size and is not
  affected by the crop box, so the stamped-text coordinates computed from
  `p1Size`/`p2Size` are media-box coordinates of the copied page.
* `font.widthOfTextAtSize` applied to the decimal rendering of the counter
  is modelled by an arbitrary function `textWidthOf : Int → Rat`, supplied
  as a parameter.
* `PDFDocument.load` either succeeds with the parsed list of pages or
  fails; `splitA3ToA4` receives the parse result as an `Option` and
  returns the `Except` outcome paired with the list of values passed to
  the progress callback, in call order.
-/

namespace A3ToA4

/-- `SplitOptions.orientation` values from `types.ts`. -/
inductive Orientation where
  | auto
  | vertical
  | horizontal
deriving DecidableEq

/-- `SplitOptions.numberingSide` values from `types.ts`. -/
inductive NumberingSide where
  | both
  | first
  | second
deriving DecidableEq

/-- The `SplitOptions` record from `types.ts`. -/
structure SplitOptions where
  orientation : Orientation
  splitRatio : ℚ
  evenSplitRatio : Option ℚ
  useDualRatios : Bool
  mergeToSingleFile : Bool
  enablePageNumbering : Bool
  startingPageNumber : ℤ
  numberingStartFromPageIndex : ℕ
  numberingSide : NumberingSide
deriving DecidableEq

/-- A source page: its media-box width and height in points. -/
structure Page where
  width : ℚ
  height : ℚ
deriving DecidableEq

/-- A rectangle in `setCropBox(x, y, width, height)` form,
origin at the bottom-left of the page. -/
structure Rect where
  x : ℚ
  y : ℚ
  w : ℚ
  h : ℚ
deriving DecidableEq

/-- One `drawText` call stamped onto an output page: the position passed to
`drawText`, the width the embedded font assigns to the text, and the
numeric value of the text. -/
structure Stamp where
  x : ℚ
  y : ℚ
  textW : ℚ
  num : ℤ
deriving DecidableEq

/-- One page of the output document: a copy of source page `srcIndex`
(`isSecondHalf = false` for `page1`, `true` for `page2`), with the copied
media box, the crop box assigned by `setCropBox`, and the stamps drawn. -/
structure OutputPage where
  srcIndex : ℕ
  isSecondHalf : Bool
  mediaW : ℚ
  mediaH : ℚ
  cropBox : Rect
  stamps : List Stamp
deriving DecidableEq

/-- `const isEvenPage = i % 2 === 1;` -/
def isEvenPage (i : ℕ) : Bool := i % 2 == 1

/-- `const currentRatio = (options.useDualRatios && isEvenPage &&
options.evenSplitRatio !== undefined) ? options.evenSplitRatio :
options.splitRatio;` -/
def currentRatio (options : SplitOptions) (i : ℕ) : ℚ :=
  match options.evenSplitRatio with
  | some e => if options.useDualRatios && isEvenPage i then e else options.splitRatio
  | none => options.splitRatio

/-- `if (options.orientation === 'auto') { useVerticalSplit = width > height; }
else { useVerticalSplit = options.orientation === 'vertical'; }` -/
def useVerticalSplit (options : SplitOptions) (width height : ℚ) : Bool :=
  if options.orientation = Orientation.auto then decide (width > height)
  else options.orientation == Orientation.vertical

/-- Crop box assigned to `page1`:
vertical `setCropBox(0, 0, splitPos, height)` with `splitPos = width * r`,
horizontal `setCropBox(0, splitPos, width, height - splitPos)` with
`splitPos = height * (1 - r)`. -/
def cropFirst (vsplit : Bool) (width height r : ℚ) : Rect :=
  if vsplit then ⟨0, 0, width * r, height⟩
  else ⟨0, height * (1 - r), width, height - height * (1 - r)⟩

/-- Crop box assigned to `page2`:
vertical `setCropBox(splitPos, 0, width - splitPos, height)`,
horizontal `setCropBox(0, 0, width, splitPos)`. -/
def cropSecond (vsplit : Bool) (width height r : ℚ) : Rect :=
  if vsplit then ⟨width * r, 0, width - width * r, height⟩
  else ⟨0, 0, width, height * (1 - r)⟩

/-- Whether the numbering block stamps the first copy of source page `i`:
`shouldAddNumberToThisA3Page && (numberingSide === 'both' || numberingSide
=== 'first')`. -/
def numbersFirstHalf (options : SplitOptions) (i : ℕ) : Bool :=
  options.enablePageNumbering && decide (options.numberingStartFromPageIndex ≤ i)
    && (options.numberingSide == NumberingSide.both
        || options.numberingSide == NumberingSide.first)

/-- Whether the numbering block stamps the second copy of source page `i`. -/
def numbersSecondHalf (options : SplitOptions) (i : ℕ) : Bool :=
  options.enablePageNumbering && decide (options.numberingStartFromPageIndex ≤ i)
    && (options.numberingSide == NumberingSide.both
        || options.numberingSide == NumberingSide.second)

/-- The loop body of `splitA3ToA4` for source page `i` with the running
`pageNumberCounter` value: produces the two copies (`page1`, `page2`) and
the updated counter.  The stamp position mirrors
`x: p1Size.width / 2 - textWidth1 / 2, y: 15` where `p1Size` is the
media-box size of the copy, i.e. the full source page size. -/
def processPage (options : SplitOptions) (textWidthOf : ℤ → ℚ) (i : ℕ)
    (page : Page) (pageNumberCounter : ℤ) : OutputPage × OutputPage × ℤ :=
  let width := page.width
  let height := page.height
  let r := currentRatio options i
  let vsplit := useVerticalSplit options width height
  let c1 := pageNumberCounter
  let stamps1 : List Stamp :=
    if numbersFirstHalf options i then
      [⟨width / 2 - textWidthOf c1 / 2, 15, textWidthOf c1, c1⟩]
    else []
  let c2 := if numbersFirstHalf options i then c1 + 1 else c1
  let stamps2 : List Stamp :=
    if numbersSecondHalf options i then
      [⟨width / 2 - textWidthOf c2 / 2, 15, textWidthOf c2, c2⟩]
    else []
  let c3 := if numbersSecondHalf options i then c2 + 1 else c2
  (⟨i, false, width, height, cropFirst vsplit width height r, stamps1⟩,
   ⟨i, true, width, height, cropSecond vsplit width height r, stamps2⟩,
   c3)

/-- The `for` loop of `splitA3ToA4`: processes the remaining pages starting
at index `i` with counter `c`, returning the output pages in `addPage`
order and the progress values `((i + 1) / totalPages) * 100` in call
order. -/
def splitLoop (options : SplitOptions) (textWidthOf : ℤ → ℚ) (totalPages : ℕ) :
    ℕ → ℤ → List Page → List OutputPage × List ℚ
  | _, _, [] => ([], [])
  | i, c, page :: rest =>
    let step := processPage options textWidthOf i page c
    let restOut := splitLoop options textWidthOf totalPages (i + 1) step.2.2 rest
    (step.1 :: step.2.1 :: restOut.1,
     (((i : ℚ) + 1) / (totalPages : ℚ) * 100) :: restOut.2)

/-- The output pages produced by a successful run of `splitA3ToA4`. -/
def outputPages (options : SplitOptions) (textWidthOf : ℤ → ℚ)
    (pages : List Page) : List OutputPage :=
  (splitLoop options textWidthOf pages.length 0 options.startingPageNumber pages).1

/-- The progress values reported by a successful run of `splitA3ToA4`. -/
def progressValues (options : SplitOptions) (textWidthOf : ℤ → ℚ)
    (pages : List Page) : List ℚ :=
  (splitLoop options textWidthOf pages.length 0 options.startingPageNumber pages).2

/-- `splitA3ToA4` from `services/pdfService.ts`: `PDFDocument.load` either
fails (the promise rejects before the loop runs, so the progress callback
is never invoked and no bytes are produced) or yields the source pages,
which are processed in order.  The result is paired with the full trace of
progress-callback values. -/
def splitA3ToA4 (parsed : Option (List Page)) (options : SplitOptions)
    (textWidthOf : ℤ → ℚ) : Except Unit (List OutputPage) × List ℚ :=
  match parsed with
  | none => (Except.error (), [])
  | some pages =>
    (Except.ok (outputPages options textWidthOf pages),
     progressValues options textWidthOf pages)

/-- The preview's split-axis computation in `App.tsx`:
`const isVerticalSplit = splitMode === 'auto' ? (previewInfo ?
previewInfo.width > previewInfo.height : true) : splitMode ===
'vertical';` -/
def isVerticalSplitPreview (splitMode : Orientation) (previewInfo : Option Page) : Bool :=
  if splitMode = Orientation.auto then
    match previewInfo with
    | some info => decide (info.width > info.height)
    | none => true
  else splitMode == Orientation.vertical

/-- The preview's ratio computation in `App.tsx`:
`const isCurrentPageEven = currentPage % 2 === 0;` (with 1-based
`currentPage`) and `const currentActiveRatio = (useDualRatios &&
isCurrentPageEven) ? evenSplitRatio : splitRatio;`. -/
def currentActiveRatio (useDualRatios : Bool) (currentPage : ℕ)
    (evenRatioState ratioState : ℚ) : ℚ :=
  if useDualRatios && (currentPage % 2 == 0) then evenRatioState else ratioState

/-- `getSimulatedPageNumbers` from `App.tsx`, with the component state it
reads passed as arguments (`currentPage` is 1-based). -/
def getSimulatedPageNumbers (enable : Bool) (currentPage : ℕ)
    (startFromIndex : ℕ) (startingNumber : ℤ) (side : NumberingSide) :
    Option ℤ × Option ℤ :=
  if !enable || decide ((currentPage : ℤ) - 1 < (startFromIndex : ℤ)) then (none, none)
  else
    let partsPerA3 : ℤ := if side == NumberingSide.both then 2 else 1
    let currentA3PageIndex : ℤ := (currentPage : ℤ) - 1
    let previousNumberedA3Pages : ℤ := max 0 (currentA3PageIndex - (startFromIndex : ℤ))
    let count := startingNumber + previousNumberedA3Pages * partsPerA3
    let p1 := if side == NumberingSide.both || side == NumberingSide.first
      then some count else none
    let p2 := if side == NumberingSide.both then some (count + 1)
      else if side == NumberingSide.second then some count else none
    (p1, p2)

/-- Counter advance performed by the numbering block for source page `i`. -/
def counterStep (options : SplitOptions) (i : ℕ) (c : ℤ) : ℤ :=
  let c2 := if numbersFirstHalf options i then c + 1 else c
  if numbersSecondHalf options i then c2 + 1 else c2

/-- Value of `pageNumberCounter` when the loop reaches source page `p`. -/
def counterBefore (options : SplitOptions) : ℕ → ℤ
  | 0 => options.startingPageNumber
  | p + 1 => counterStep options p (counterBefore options p)

/-- Counter value after `k` further iterations, starting at index `i` with
counter `c`. -/
def counterFrom (options : SplitOptions) (i : ℕ) (c : ℤ) : ℕ → ℤ
  | 0 => c
  | k + 1 => counterStep options (i + k) (counterFrom options i c k)

/-- How much one numbered source page advances the counter:
2 when `numberingSide` is `both`, otherwise 1. -/
def sideCount (options : SplitOptions) : ℤ :=
  if options.numberingSide = NumberingSide.both then 2 else 1

/-- The number stamped on an output page, if any. -/
def stampNum (pg? : Option OutputPage) : Option ℤ :=
  pg?.bind fun pg => pg.stamps.head?.map Stamp.num

/-- All numbers stamped across an output document, in drawing order. -/
def stampedNumbers (out : List OutputPage) : List ℤ :=
  out.flatMap fun pg => pg.stamps.map Stamp.num

/-- The set of points visible through a rectangle, reading it as the
half-open window `[x, x + w) × [y, y + h)` so that abutting windows
partition the page. -/
def Rect.toSet (r : Rect) : Set (ℚ × ℚ) :=
  {q | r.x ≤ q.1 ∧ q.1 < r.x + r.w ∧ r.y ≤ q.2 ∧ q.2 < r.y + r.h}

section Lemmas

lemma counterStep_processPage (options : SplitOptions) (textWidthOf : ℤ → ℚ)
    (i : ℕ) (page : Page) (c : ℤ) :
    (processPage options textWidthOf i page c).2.2 = counterStep options i c := rfl

lemma counterFrom_zero (options : SplitOptions) :
    ∀ p : ℕ, counterFrom options 0 options.startingPageNumber p = counterBefore options p := by
  intro p
  induction p with
  | zero => rfl
  | succ k ih =>
    show counterStep options (0 + k) (counterFrom options 0 options.startingPageNumber k)
      = counterStep options k (counterBefore options k)
    rw [Nat.zero_add, ih]

lemma counterFrom_shift (options : SplitOptions) (i : ℕ) (c : ℤ) :
    ∀ k : ℕ, counterFrom options (i + 1) (counterStep options i c) k
      = counterFrom options i c (k + 1) := by
  intro k
  induction k with
  | zero =>
    show counterStep options i c = counterStep options (i + 0) (counterFrom options i c 0)
    rw [Nat.add_zero]
    rfl
  | succ m ih =>
    show counterStep options (i + 1 + m) _ = counterStep options (i + (m + 1)) _
    rw [ih]
    have h : i + 1 + m = i + (m + 1) := by omega
    rw [h]

lemma splitLoop_fst_length (options : SplitOptions) (textWidthOf : ℤ → ℚ) (n : ℕ) :
    ∀ (pages : List Page) (i : ℕ) (c : ℤ),
      (splitLoop options textWidthOf n i c pages).1.length = 2 * pages.length := by
  intro pages
  induction pages with
  | nil => intro i c; rfl
  | cons page rest ih =>
    intro i c
    show (_ :: _ :: _).length = _
    rw [List.length_cons, List.length_cons, ih, List.length_cons]
    omega

lemma splitLoop_fst_cons (options : SplitOptions) (textWidthOf : ℤ → ℚ) (n : ℕ)
    (i : ℕ) (c : ℤ) (hd : Page) (rest : List Page) :
    (splitLoop options textWidthOf n i c (hd :: rest)).1
      = (processPage options textWidthOf i hd c).1
          :: (processPage options textWidthOf i hd c).2.1
          :: (splitLoop options textWidthOf n (i + 1) (counterStep options i c) rest).1 := rfl

lemma splitLoop_snd_cons (options : SplitOptions) (textWidthOf : ℤ → ℚ) (n : ℕ)
    (i : ℕ) (c : ℤ) (hd : Page) (rest : List Page) :
    (splitLoop options textWidthOf n i c (hd :: rest)).2
      = (((i : ℚ) + 1) / (n : ℚ) * 100)
          :: (splitLoop options textWidthOf n (i + 1) (counterStep options i c) rest).2 := rfl

lemma splitLoop_fst_getElem (options : SplitOptions) (textWidthOf : ℤ → ℚ) (n : ℕ) :
    ∀ (pages : List Page) (i : ℕ) (c : ℤ) (k : ℕ) (page : Page),
      pages[k]? = some page →
        (splitLoop options textWidthOf n i c pages).1[2 * k]?
            = some (processPage options textWidthOf (i + k) page (counterFrom options i c k)).1
          ∧ (splitLoop options textWidthOf n i c pages).1[2 * k + 1]?
            = some (processPage options textWidthOf (i + k) page (counterFrom options i c k)).2.1 := by
  intro pages
  induction pages with
  | nil => intro i c k page h; simp at h
  | cons hd rest ih =>
    intro i c k page h
    rw [splitLoop_fst_cons]
    match k with
    | 0 =>
      have hpage : page = hd := by
        simpa using h.symm
      subst hpage
      constructor
      · simp [counterFrom]
      · simp [counterFrom]
    | m + 1 =>
      have hrest : rest[m]? = some page := by
        simpa using h
      have ihm := ih (i + 1) (counterStep options i c) m page hrest
      rw [counterFrom_shift options i c m] at ihm
      have hidx : i + 1 + m = i + (m + 1) := by omega
      rw [hidx] at ihm
      have h2 : 2 * (m + 1) = 2 * m + 1 + 1 := by omega
      rw [h2]
      constructor
      · rw [List.getElem?_cons_succ, List.getElem?_cons_succ]
        exact ihm.1
      · rw [List.getElem?_cons_succ, List.getElem?_cons_succ]
        exact ihm.2

lemma splitLoop_nil (options : SplitOptions) (textWidthOf : ℤ → ℚ) (n : ℕ)
    (i : ℕ) (c : ℤ) :
    splitLoop options textWidthOf n i c [] = ([], []) := rfl

lemma processPage_fst_srcIndex (options : SplitOptions) (textWidthOf : ℤ → ℚ)
    (i : ℕ) (page : Page) (c : ℤ) :
    (processPage options textWidthOf i page c).1.srcIndex = i := rfl

lemma processPage_fst_isSecondHalf (options : SplitOptions) (textWidthOf : ℤ → ℚ)
    (i : ℕ) (page : Page) (c : ℤ) :
    (processPage options textWidthOf i page c).1.isSecondHalf = false := rfl

lemma processPage_snd_srcIndex (options : SplitOptions) (textWidthOf : ℤ → ℚ)
    (i : ℕ) (page : Page) (c : ℤ) :
    (processPage options textWidthOf i page c).2.1.srcIndex = i := rfl

lemma processPage_snd_isSecondHalf (options : SplitOptions) (textWidthOf : ℤ → ℚ)
    (i : ℕ) (page : Page) (c : ℤ) :
    (processPage options textWidthOf i page c).2.1.isSecondHalf = true := rfl

lemma processPage_fst_cropBox (options : SplitOptions) (textWidthOf : ℤ → ℚ)
    (i : ℕ) (page : Page) (c : ℤ) :
    (processPage options textWidthOf i page c).1.cropBox
      = cropFirst (useVerticalSplit options page.width page.height)
          page.width page.height (currentRatio options i) := rfl

lemma processPage_snd_cropBox (options : SplitOptions) (textWidthOf : ℤ → ℚ)
    (i : ℕ) (page : Page) (c : ℤ) :
    (processPage options textWidthOf i page c).2.1.cropBox
      = cropSecond (useVerticalSplit options page.width page.height)
          page.width page.height (currentRatio options i) := rfl

lemma processPage_fst_stamps (options : SplitOptions) (textWidthOf : ℤ → ℚ)
    (i : ℕ) (page : Page) (c : ℤ) :
    (processPage options textWidthOf i page c).1.stamps
      = if numbersFirstHalf options i then
          [⟨page.width / 2 - textWidthOf c / 2, 15, textWidthOf c, c⟩]
        else [] := rfl

lemma processPage_snd_stamps (options : SplitOptions) (textWidthOf : ℤ → ℚ)
    (i : ℕ) (page : Page) (c : ℤ) :
    (processPage options textWidthOf i page c).2.1.stamps
      = if numbersSecondHalf options i then
          [⟨page.width / 2
              - textWidthOf (if numbersFirstHalf options i then c + 1 else c) / 2, 15,
            textWidthOf (if numbersFirstHalf options i then c + 1 else c),
            if numbersFirstHalf options i then c + 1 else c⟩]
        else [] := rfl

lemma splitLoop_fst_map (options : SplitOptions) (textWidthOf : ℤ → ℚ) (n : ℕ) :
    ∀ (pages : List Page) (i : ℕ) (c : ℤ),
      (splitLoop options textWidthOf n i c pages).1.map
          (fun pg => (pg.srcIndex, pg.isSecondHalf))
        = (List.range' i pages.length).flatMap (fun k => [(k, false), (k, true)]) := by
  intro pages
  induction pages with
  | nil => intro i c; simp [splitLoop_nil]
  | cons hd rest ih =>
    intro i c
    rw [splitLoop_fst_cons, List.map_cons, List.map_cons,
      ih (i + 1) (counterStep options i c), List.length_cons, List.range'_succ,
      List.flatMap_cons, processPage_fst_srcIndex, processPage_fst_isSecondHalf,
      processPage_snd_srcIndex, processPage_snd_isSecondHalf]
    rfl

lemma splitLoop_snd_range (options : SplitOptions) (textWidthOf : ℤ → ℚ) (n : ℕ) :
    ∀ (pages : List Page) (i : ℕ) (c : ℤ),
      (splitLoop options textWidthOf n i c pages).2
        = (List.range' (i + 1) pages.length).map (fun (k : ℕ) => (k : ℚ) / (n : ℚ) * 100) := by
  intro pages
  induction pages with
  | nil => intro i c; simp [splitLoop_nil]
  | cons hd rest ih =>
    intro i c
    rw [splitLoop_snd_cons, ih (i + 1) (counterStep options i c), List.length_cons,
      List.range'_succ, List.map_cons]
    push_cast
    rfl

lemma counterBefore_closed (options : SplitOptions) :
    ∀ p : ℕ,
      counterBefore options p = options.startingPageNumber +
        (if options.enablePageNumbering then
          sideCount options * ((p - options.numberingStartFromPageIndex : ℕ) : ℤ)
        else 0) := by
  intro p
  induction p with
  | zero =>
    simp [counterBefore]
  | succ p ih =>
    show counterStep options p (counterBefore options p) = _
    rw [ih]
    by_cases he : options.enablePageNumbering = true
    · by_cases hs : options.numberingStartFromPageIndex ≤ p
      · cases hside : options.numberingSide <;>
          simp [counterStep, numbersFirstHalf, numbersSecondHalf, sideCount, he, hs,
            hside] <;> omega
      · cases hside : options.numberingSide <;>
          simp [counterStep, numbersFirstHalf, numbersSecondHalf, sideCount, he, hs,
            hside] <;> omega
    · simp [counterStep, numbersFirstHalf, numbersSecondHalf, he]

end Lemmas

/-! Concrete sample inputs used by the example clauses and witnesses. -/

/-- A sample font-metric function: every rendered number is 12 points wide. -/
def twSample : ℤ → ℚ := fun _ => 12

/-- The counter-sequencing example configuration of the spec:
start at 5, number from source index 0, both sides, vertical split. -/
def numberingOptions : SplitOptions :=
  { orientation := Orientation.vertical, splitRatio := 1/2, evenSplitRatio := none,
    useDualRatios := false, mergeToSingleFile := true, enablePageNumbering := true,
    startingPageNumber := 5, numberingStartFromPageIndex := 0,
    numberingSide := NumberingSide.both }

/-- Three identical landscape source pages. -/
def threePages : List Page := [⟨100, 50⟩, ⟨100, 50⟩, ⟨100, 50⟩]

/-- A single landscape source page. -/
def onePage : List Page := [⟨100, 50⟩]

/-- The even/odd-ratio example configuration of the spec:
dual ratios on, primary 0.5, alternate 0.3. -/
def dualRatioOptions : SplitOptions :=
  { orientation := Orientation.auto, splitRatio := 1/2, evenSplitRatio := some (3/10),
    useDualRatios := true, mergeToSingleFile := true, enablePageNumbering := false,
    startingPageNumber := 1, numberingStartFromPageIndex := 0,
    numberingSide := NumberingSide.both }

/-- `numberingOptions` with numbering switched off. -/
def numberingOff : SplitOptions :=
  { numberingOptions with enablePageNumbering := false }

/-- A forced horizontal split with numbering on both sides. -/
def horizontalNumbering : SplitOptions :=
  { orientation := Orientation.horizontal, splitRatio := 1/2, evenSplitRatio := none,
    useDualRatios := false, mergeToSingleFile := true, enablePageNumbering := true,
    startingPageNumber := 1, numberingStartFromPageIndex := 0,
    numberingSide := NumberingSide.both }

/-- A landscape A3-like page, 1000 × 700 points. -/
def a3Landscape : Page := ⟨1000, 700⟩

lemma splitA3ToA4_some (options : SplitOptions) (textWidthOf : ℤ → ℚ)
    (pages : List Page) :
    splitA3ToA4 (some pages) options textWidthOf
      = (Except.ok (outputPages options textWidthOf pages),
         progressValues options textWidthOf pages) := rfl

/-- C1: for every source document and configuration, `splitA3ToA4` succeeds
with an output document of exactly `2 × pages.length` pages, appended in
source order as (first half, second half) per source page, for every
configuration. -/
theorem c1_output_page_count_and_order (options : SplitOptions)
    (textWidthOf : ℤ → ℚ) (pages : List Page) :
    (splitA3ToA4 (some pages) options textWidthOf).1
        = Except.ok (outputPages options textWidthOf pages)
      ∧ (outputPages options textWidthOf pages).length = 2 * pages.length
      ∧ (outputPages options textWidthOf pages).map
          (fun pg => (pg.srcIndex, pg.isSecondHalf))
        = (List.range pages.length).flatMap (fun k => [(k, false), (k, true)]) := by
  refine ⟨rfl, ?_, ?_⟩
  · exact splitLoop_fst_length options textWidthOf pages.length pages 0
      options.startingPageNumber
  · rw [outputPages, splitLoop_fst_map, List.range_eq_range']

/-- C2: the split axis is vertical iff orientation is `vertical`, or `auto`
with width exceeding height; a vertical split crops the copies to
`[0, 0, w·r, h]` and `[w·r, 0, w·(1−r), h]`, a horizontal split to the
upper region `[0, h·(1−r), w, h·r]` and the lower region
`[0, 0, w, h·(1−r)]`. -/
theorem c2_crop_geometry (options : SplitOptions) (textWidthOf : ℤ → ℚ)
    (i : ℕ) (page : Page) (c : ℤ) :
    (useVerticalSplit options page.width page.height = true ↔
        (options.orientation = Orientation.vertical ∨
          (options.orientation = Orientation.auto ∧ page.height < page.width)))
      ∧ (processPage options textWidthOf i page c).1.cropBox
          = (if useVerticalSplit options page.width page.height then
              Rect.mk 0 0 (page.width * currentRatio options i) page.height
            else
              Rect.mk 0 (page.height * (1 - currentRatio options i)) page.width
                (page.height * currentRatio options i))
      ∧ (processPage options textWidthOf i page c).2.1.cropBox
          = (if useVerticalSplit options page.width page.height then
              Rect.mk (page.width * currentRatio options i) 0
                (page.width * (1 - currentRatio options i)) page.height
            else
              Rect.mk 0 0 page.width (page.height * (1 - currentRatio options i))) := by
  refine ⟨?_, ?_, ?_⟩
  · cases horient : options.orientation <;>
      simp [useVerticalSplit, horient]
  · rw [processPage_fst_cropBox]
    cases hv : useVerticalSplit options page.width page.height
    · simp [cropFirst, hv, Rect.mk.injEq]
      ring
    · simp [cropFirst, hv, Rect.mk.injEq]
  · rw [processPage_snd_cropBox]
    cases hv : useVerticalSplit options page.width page.height
    · simp [cropSecond, hv, Rect.mk.injEq]
    · simp [cropSecond, hv, Rect.mk.injEq]
      ring

/-- C3: the active ratio for source page `i` is the alternate ratio exactly
when dual-ratio mode is on, `i mod 2 = 1`, and the alternate ratio is set,
and the primary ratio otherwise; in particular, with primary 0.5 and
alternate 0.3 the page at index 1 gets ratio 0.3. -/
theorem c3_ratio_selection :
    (∀ (options : SplitOptions) (i : ℕ) (e : ℚ),
        options.evenSplitRatio = some e →
          currentRatio options i
            = if options.useDualRatios = true ∧ i % 2 = 1 then e
              else options.splitRatio)
      ∧ (∀ (options : SplitOptions) (i : ℕ),
          options.evenSplitRatio = none →
            currentRatio options i = options.splitRatio)
      ∧ currentRatio dualRatioOptions 1 = 3/10 := by
  refine ⟨?_, ?_, rfl⟩
  · intro options i e he
    simp only [currentRatio, he, isEvenPage]
    by_cases hd : options.useDualRatios = true <;>
      by_cases hp : i % 2 = 1 <;>
        simp [hd, hp]
  · intro options i h
    simp [currentRatio, h]

/-- Witness for C3 at a concrete configuration and page index. -/
theorem c3_ratio_selection_witness :
    dualRatioOptions.evenSplitRatio = some (3/10)
      ∧ currentRatio dualRatioOptions 1
        = if dualRatioOptions.useDualRatios = true ∧ 1 % 2 = 1 then (3/10 : ℚ)
          else dualRatioOptions.splitRatio :=
  ⟨rfl, c3_ratio_selection.1 dualRatioOptions 1 (3/10) rfl⟩

/-- C8: when the source bytes do not parse, `splitA3ToA4` fails with no
output document and an empty progress trace: the callback was never
invoked. -/
theorem c8_parse_failure_no_output_no_progress (options : SplitOptions)
    (textWidthOf : ℤ → ℚ) :
    splitA3ToA4 none options textWidthOf = (Except.error (), []) := rfl

lemma processPage_merge (options : SplitOptions) (b : Bool) (textWidthOf : ℤ → ℚ)
    (i : ℕ) (page : Page) (c : ℤ) :
    processPage { options with mergeToSingleFile := b } textWidthOf i page c
      = processPage options textWidthOf i page c := rfl

lemma counterStep_merge (options : SplitOptions) (b : Bool) (i : ℕ) (c : ℤ) :
    counterStep { options with mergeToSingleFile := b } i c
      = counterStep options i c := rfl

lemma splitLoop_merge (options : SplitOptions) (b : Bool) (textWidthOf : ℤ → ℚ)
    (n : ℕ) :
    ∀ (pages : List Page) (i : ℕ) (c : ℤ),
      splitLoop { options with mergeToSingleFile := b } textWidthOf n i c pages
        = splitLoop options textWidthOf n i c pages := by
  intro pages
  induction pages with
  | nil => intro i c; rfl
  | cons hd rest ih =>
    intro i c
    have h1 := splitLoop_fst_cons { options with mergeToSingleFile := b }
      textWidthOf n i c hd rest
    have h2 := splitLoop_snd_cons { options with mergeToSingleFile := b }
      textWidthOf n i c hd rest
    rw [processPage_merge, counterStep_merge, ih] at h1
    rw [counterStep_merge, ih] at h2
    rw [Prod.ext_iff, h1, h2, splitLoop_fst_cons, splitLoop_snd_cons]
    exact ⟨rfl, rfl⟩

lemma splitA3ToA4_merge (options : SplitOptions) (b : Bool) (textWidthOf : ℤ → ℚ)
    (parsed : Option (List Page)) :
    splitA3ToA4 parsed { options with mergeToSingleFile := b } textWidthOf
      = splitA3ToA4 parsed options textWidthOf := by
  cases parsed with
  | none => rfl
  | some pages =>
    rw [splitA3ToA4_some, splitA3ToA4_some, outputPages, outputPages,
      progressValues, progressValues]
    have hsp : SplitOptions.startingPageNumber { options with mergeToSingleFile := b }
        = options.startingPageNumber := rfl
    rw [hsp, splitLoop_merge]

/-- C10: two configurations that differ only in `mergeToSingleFile` give
identical results and identical progress traces: the splitter never reads
that field. -/
theorem c10_merge_field_never_read (o1 o2 : SplitOptions)
    (textWidthOf : ℤ → ℚ) (parsed : Option (List Page))
    (horient : o1.orientation = o2.orientation)
    (hratio : o1.splitRatio = o2.splitRatio)
    (heven : o1.evenSplitRatio = o2.evenSplitRatio)
    (hdual : o1.useDualRatios = o2.useDualRatios)
    (henable : o1.enablePageNumbering = o2.enablePageNumbering)
    (hstart : o1.startingPageNumber = o2.startingPageNumber)
    (hindex : o1.numberingStartFromPageIndex = o2.numberingStartFromPageIndex)
    (hside : o1.numberingSide = o2.numberingSide) :
    splitA3ToA4 parsed o1 textWidthOf = splitA3ToA4 parsed o2 textWidthOf := by
  have h : o2 = { o1 with mergeToSingleFile := o2.mergeToSingleFile } := by
    cases o1
    cases o2
    simp_all
  rw [h]
  exact (splitA3ToA4_merge o1 o2.mergeToSingleFile textWidthOf parsed).symm

/-- Witness for C10: the sample configuration with `mergeToSingleFile`
flipped gives the same run on a concrete document. -/
theorem c10_merge_field_never_read_witness :
    splitA3ToA4 (some threePages) numberingOptions twSample
      = splitA3ToA4 (some threePages)
          { numberingOptions with mergeToSingleFile := false } twSample :=
  c10_merge_field_never_read numberingOptions
    { numberingOptions with mergeToSingleFile := false } twSample (some threePages)
    rfl rfl rfl rfl rfl rfl rfl rfl

/-- C5: the numbering counter starts at `startingPageNumber`, gains exactly
1 per stamped half (first copy before second), never decreases, does not
move for pages before the numbering start index or with numbering off, and
on the spec's example (start 5, index 0, both sides, 3 pages) stamps
`5,6,7,8,9,10` in output order. -/
theorem c5_counter_monotone_increments :
    (∀ options : SplitOptions, counterBefore options 0 = options.startingPageNumber)
      ∧ (∀ (options : SplitOptions) (p : ℕ),
          counterBefore options (p + 1)
            = counterBefore options p
              + (if numbersFirstHalf options p then 1 else 0)
              + (if numbersSecondHalf options p then 1 else 0))
      ∧ (∀ (options : SplitOptions) (p : ℕ),
          counterBefore options p ≤ counterBefore options (p + 1))
      ∧ (∀ (options : SplitOptions) (p : ℕ),
          (options.enablePageNumbering = false ∨
              p < options.numberingStartFromPageIndex) →
            counterBefore options (p + 1) = counterBefore options p)
      ∧ (∀ (options : SplitOptions) (textWidthOf : ℤ → ℚ) (p : ℕ) (page : Page),
          ((processPage options textWidthOf p page
                (counterBefore options p)).1.stamps.map Stamp.num
            = if numbersFirstHalf options p then [counterBefore options p] else [])
          ∧ ((processPage options textWidthOf p page
                (counterBefore options p)).2.1.stamps.map Stamp.num
            = if numbersSecondHalf options p then
                [counterBefore options p
                  + (if numbersFirstHalf options p then 1 else 0)]
              else []))
      ∧ stampedNumbers (outputPages numberingOptions twSample threePages)
          = [5, 6, 7, 8, 9, 10] := by
  refine ⟨fun options => rfl, ?_, ?_, ?_, ?_, rfl⟩
  · intro options p
    show counterStep options p (counterBefore options p) = _
    rw [counterStep]
    split <;> split <;> omega
  · intro options p
    show counterBefore options p ≤ counterStep options p (counterBefore options p)
    rw [counterStep]
    split <;> split <;> omega
  · intro options p h
    show counterStep options p (counterBefore options p) = _
    rcases h with h | h
    · simp [counterStep, numbersFirstHalf, numbersSecondHalf, h]
    · simp [counterStep, numbersFirstHalf, numbersSecondHalf, Nat.not_le.mpr h]
  · intro options textWidthOf p page
    constructor
    · rw [processPage_fst_stamps]
      split <;> simp
    · rw [processPage_snd_stamps]
      by_cases hs : numbersSecondHalf options p = true
      · by_cases hf : numbersFirstHalf options p = true
        · simp [hs, hf]
        · simp [hs, hf]
      · simp [hs]

/-- Witness for C5 at a configuration with numbering off and page 0. -/
theorem c5_counter_monotone_increments_witness :
    (numberingOff.enablePageNumbering = false ∨
        0 < numberingOff.numberingStartFromPageIndex)
      ∧ counterBefore numberingOff (0 + 1) = counterBefore numberingOff 0 :=
  ⟨Or.inl rfl, c5_counter_monotone_increments.2.2.2.1 numberingOff 0 (Or.inl rfl)⟩

lemma progressValues_closed (options : SplitOptions) (textWidthOf : ℤ → ℚ)
    (pages : List Page) :
    progressValues options textWidthOf pages
      = (List.range' 1 pages.length).map
          (fun (k : ℕ) => (k : ℚ) / (pages.length : ℚ) * 100) := by
  rw [progressValues, splitLoop_snd_range]

/-- C6: the progress callback fires once per source page, `n` times in all,
the `k`-th call (1-based) reporting `(k / n) * 100`; the values are
strictly increasing, lie in `(0, 100]`, and the last one is exactly
100. -/
theorem c6_progress_strictly_increasing_to_100 (options : SplitOptions)
    (textWidthOf : ℤ → ℚ) (pages : List Page) (hne : pages ≠ []) :
    (splitA3ToA4 (some pages) options textWidthOf).2
        = (List.range' 1 pages.length).map
            (fun (k : ℕ) => (k : ℚ) / (pages.length : ℚ) * 100)
      ∧ (splitA3ToA4 (some pages) options textWidthOf).2.length = pages.length
      ∧ List.Pairwise (· < ·) (splitA3ToA4 (some pages) options textWidthOf).2
      ∧ (∀ q ∈ (splitA3ToA4 (some pages) options textWidthOf).2, 0 < q ∧ q ≤ 100)
      ∧ (splitA3ToA4 (some pages) options textWidthOf).2.getLast? = some 100 := by
  have hn : 0 < pages.length := List.length_pos.mpr hne
  have hnq : (0 : ℚ) < (pages.length : ℚ) := by exact_mod_cast hn
  have hform : (splitA3ToA4 (some pages) options textWidthOf).2
      = (List.range' 1 pages.length).map
          (fun (k : ℕ) => (k : ℚ) / (pages.length : ℚ) * 100) := by
    rw [splitA3ToA4_some]
    exact progressValues_closed options textWidthOf pages
  refine ⟨hform, ?_, ?_, ?_, ?_⟩
  · rw [hform, List.length_map, List.length_range']
  · rw [hform, List.pairwise_map]
    refine (List.pairwise_lt_range' 1 pages.length).imp ?_
    intro a b hab
    have hab' : (a : ℚ) < (b : ℚ) := by exact_mod_cast hab
    have h1 : (a : ℚ) / (pages.length : ℚ) < (b : ℚ) / (pages.length : ℚ) :=
      div_lt_div_of_pos_right hab' hnq
    nlinarith
  · intro q hq
    rw [hform] at hq
    obtain ⟨k, hk, rfl⟩ := List.mem_map.mp hq
    obtain ⟨hk1, hk2⟩ := List.mem_range'_1.mp hk
    have hk1' : (0 : ℚ) < (k : ℚ) := by exact_mod_cast hk1
    have hk2' : (k : ℚ) ≤ (pages.length : ℚ) := by
      have : k ≤ pages.length := by omega
      exact_mod_cast this
    constructor
    · positivity
    · have hdiv : (k : ℚ) / (pages.length : ℚ) ≤ 1 := (div_le_one hnq).mpr hk2'
      nlinarith
  · rw [hform]
    obtain ⟨m, hm⟩ : ∃ m, pages.length = m + 1 := ⟨pages.length - 1, by omega⟩
    rw [hm]
    have hconcat : List.range' 1 (m + 1) = List.range' 1 m ++ [1 + m] := by
      simpa using @List.range'_concat 1 1 m
    rw [hconcat, List.map_append, List.map_cons, List.map_nil, List.getLast?_concat]
    have : ((1 + m : ℕ) : ℚ) / ((m + 1 : ℕ) : ℚ) * 100 = 100 := by
      have hm1 : ((m + 1 : ℕ) : ℚ) ≠ 0 := by positivity
      push_cast
      push_cast at hm1
      rw [add_comm]
      rw [div_self hm1]
      norm_num
    rw [this]

/-- Witness for C6 on a concrete one-page document. -/
theorem c6_progress_strictly_increasing_to_100_witness :
    onePage ≠ ([] : List Page)
      ∧ ((splitA3ToA4 (some onePage) numberingOptions twSample).2
            = (List.range' 1 onePage.length).map
                (fun (k : ℕ) => (k : ℚ) / (onePage.length : ℚ) * 100)
          ∧ (splitA3ToA4 (some onePage) numberingOptions twSample).2.length
              = onePage.length
          ∧ List.Pairwise (· < ·) (splitA3ToA4 (some onePage) numberingOptions twSample).2
          ∧ (∀ q ∈ (splitA3ToA4 (some onePage) numberingOptions twSample).2,
              0 < q ∧ q ≤ 100)
          ∧ (splitA3ToA4 (some onePage) numberingOptions twSample).2.getLast?
              = some 100) :=
  ⟨by simp [onePage],
   c6_progress_strictly_increasing_to_100 numberingOptions twSample onePage
     (by simp [onePage])⟩

lemma splitRects_vertical (w h r : ℚ) (hr0 : 0 < r) (hr1 : r < 1)
    (hw : 0 < w) :
    Disjoint (Rect.toSet ⟨0, 0, w * r, h⟩) (Rect.toSet ⟨w * r, 0, w - w * r, h⟩)
      ∧ Rect.toSet ⟨0, 0, w * r, h⟩ ∪ Rect.toSet ⟨w * r, 0, w - w * r, h⟩
        = Rect.toSet ⟨0, 0, w, h⟩ := by
  have h1 : 0 < w * r := mul_pos hw hr0
  have h2 : w * r < w := by nlinarith
  constructor
  · rw [Set.disjoint_left]
    rintro ⟨a, b⟩ hm1 hm2
    simp only [Rect.toSet, Set.mem_setOf_eq] at hm1 hm2
    obtain ⟨-, ha1, -, -⟩ := hm1
    obtain ⟨ha2, -, -, -⟩ := hm2
    simp only [zero_add] at ha1
    linarith
  · ext ⟨a, b⟩
    simp only [Rect.toSet, Set.mem_union, Set.mem_setOf_eq, zero_add]
    constructor
    · rintro (⟨ha0, haw, hb0, hbh⟩ | ⟨ha0, haw, hb0, hbh⟩)
      · exact ⟨ha0, by linarith, hb0, hbh⟩
      · exact ⟨by linarith, by linarith, hb0, hbh⟩
    · rintro ⟨ha0, haw, hb0, hbh⟩
      by_cases hc : a < w * r
      · exact Or.inl ⟨ha0, hc, hb0, hbh⟩
      · exact Or.inr ⟨by linarith, by linarith, hb0, hbh⟩

lemma splitRects_horizontal (w h r : ℚ) (hr0 : 0 < r) (hr1 : r < 1)
    (hh : 0 < h) :
    Disjoint (Rect.toSet ⟨0, h * (1 - r), w, h - h * (1 - r)⟩)
        (Rect.toSet ⟨0, 0, w, h * (1 - r)⟩)
      ∧ Rect.toSet ⟨0, h * (1 - r), w, h - h * (1 - r)⟩
          ∪ Rect.toSet ⟨0, 0, w, h * (1 - r)⟩
        = Rect.toSet ⟨0, 0, w, h⟩ := by
  have h1 : 0 < h * (1 - r) := by nlinarith
  have h2 : h * (1 - r) < h := by nlinarith
  constructor
  · rw [Set.disjoint_left]
    rintro ⟨a, b⟩ hm1 hm2
    simp only [Rect.toSet, Set.mem_setOf_eq] at hm1 hm2
    obtain ⟨-, -, hb1, -⟩ := hm1
    obtain ⟨-, -, -, hb2⟩ := hm2
    simp only [zero_add] at hb2
    linarith
  · ext ⟨a, b⟩
    simp only [Rect.toSet, Set.mem_union, Set.mem_setOf_eq, zero_add]
    constructor
    · rintro (⟨ha0, haw, hb0, hbh⟩ | ⟨ha0, haw, hb0, hbh⟩)
      · exact ⟨ha0, haw, by linarith, by linarith⟩
      · exact ⟨ha0, haw, hb0, by linarith⟩
    · rintro ⟨ha0, haw, hb0, hbh⟩
      by_cases hc : b < h * (1 - r)
      · exact Or.inr ⟨ha0, haw, hb0, hc⟩
      · exact Or.inl ⟨ha0, haw, by linarith, by linarith⟩

/-- C9: for every page and active ratio in (0,1), the two crop windows of
its two output halves are disjoint and their union is exactly the page
bounds (windows read as half-open rectangles). -/
theorem c9_crop_windows_partition_page (options : SplitOptions)
    (textWidthOf : ℤ → ℚ) (i : ℕ) (page : Page) (c : ℤ)
    (hr0 : 0 < currentRatio options i) (hr1 : currentRatio options i < 1)
    (hw : 0 < page.width) (hh : 0 < page.height) :
    Disjoint ((processPage options textWidthOf i page c).1.cropBox.toSet)
        ((processPage options textWidthOf i page c).2.1.cropBox.toSet)
      ∧ (processPage options textWidthOf i page c).1.cropBox.toSet
          ∪ (processPage options textWidthOf i page c).2.1.cropBox.toSet
        = Rect.toSet ⟨0, 0, page.width, page.height⟩ := by
  rw [processPage_fst_cropBox, processPage_snd_cropBox]
  cases hv : useVerticalSplit options page.width page.height
  · rw [cropFirst, cropSecond]
    simp only [Bool.false_eq_true, if_false]
    exact splitRects_horizontal page.width page.height (currentRatio options i)
      hr0 hr1 hh
  · rw [cropFirst, cropSecond]
    simp only [if_true]
    exact splitRects_vertical page.width page.height (currentRatio options i)
      hr0 hr1 hw

/-- Witness for C9 at the sample configuration (ratio 1/2) on a
100 × 50 page. -/
theorem c9_crop_windows_partition_page_witness :
    Disjoint ((processPage numberingOptions twSample 0 ⟨100, 50⟩ 5).1.cropBox.toSet)
        ((processPage numberingOptions twSample 0 ⟨100, 50⟩ 5).2.1.cropBox.toSet)
      ∧ (processPage numberingOptions twSample 0 ⟨100, 50⟩ 5).1.cropBox.toSet
          ∪ (processPage numberingOptions twSample 0 ⟨100, 50⟩ 5).2.1.cropBox.toSet
        = Rect.toSet ⟨0, 0, (100 : ℚ), (50 : ℚ)⟩ :=
  c9_crop_windows_partition_page numberingOptions twSample 0 ⟨100, 50⟩ 5
    (show (0 : ℚ) < 1/2 by norm_num) (show (1/2 : ℚ) < 1 by norm_num)
    (show (0 : ℚ) < 100 by norm_num) (show (0 : ℚ) < 50 by norm_num)

/-- C4: for any configuration with the alternate ratio set, the preview
arithmetic of `App.tsx` (axis, active ratio, and the two predicted
page-number labels computed in closed form) agrees exactly with what the
splitter's loop produces for the source page at index `p` (shown at
1-based `currentPage = p + 1` with matching dimensions). -/
theorem c4_preview_matches_splitter (options : SplitOptions)
    (textWidthOf : ℤ → ℚ) (pages : List Page) (p : ℕ) (page : Page) (e : ℚ)
    (hget : pages[p]? = some page)
    (he : options.evenSplitRatio = some e) :
    isVerticalSplitPreview options.orientation (some page)
        = useVerticalSplit options page.width page.height
      ∧ currentActiveRatio options.useDualRatios (p + 1) e options.splitRatio
        = currentRatio options p
      ∧ getSimulatedPageNumbers options.enablePageNumbering (p + 1)
            options.numberingStartFromPageIndex options.startingPageNumber
            options.numberingSide
        = (stampNum (outputPages options textWidthOf pages)[2 * p]?,
           stampNum (outputPages options textWidthOf pages)[2 * p + 1]?) := by
  refine ⟨?_, ?_, ?_⟩
  · cases horient : options.orientation <;>
      simp [isVerticalSplitPreview, useVerticalSplit, horient]
  · simp only [currentActiveRatio, currentRatio, he, isEvenPage]
    by_cases hd : options.useDualRatios = true
    · by_cases hp : p % 2 = 1
      · have h0 : (p + 1) % 2 = 0 := by omega
        simp [hd, hp, h0]
      · have h0 : ¬((p + 1) % 2 = 0) := by omega
        simp [hd, hp, h0]
    · simp [hd]
  · have hsplit := splitLoop_fst_getElem options textWidthOf pages.length pages 0
      options.startingPageNumber p page hget
    rw [counterFrom_zero, Nat.zero_add] at hsplit
    rw [outputPages, hsplit.1, hsplit.2]
    simp only [stampNum, Option.some_bind, processPage_fst_stamps,
      processPage_snd_stamps]
    by_cases he2 : options.enablePageNumbering = true
    · by_cases hsp : options.numberingStartFromPageIndex ≤ p
      · have hguard : ¬(((p + 1 : ℕ) : ℤ) - 1
            < (options.numberingStartFromPageIndex : ℤ)) := by
          push_cast
          omega
        have hcount : counterBefore options p
            = options.startingPageNumber
              + sideCount options * ((p - options.numberingStartFromPageIndex : ℕ) : ℤ) := by
          rw [counterBefore_closed, if_pos he2]
        cases hside : options.numberingSide
        · simp only [getSimulatedPageNumbers, he2, hguard, hside,
            numbersFirstHalf, numbersSecondHalf, hsp]
          simp [hcount, sideCount, hside, Prod.ext_iff]
          omega
        · simp only [getSimulatedPageNumbers, he2, hguard, hside,
            numbersFirstHalf, numbersSecondHalf, hsp]
          simp [hcount, sideCount, hside, Prod.ext_iff]
          omega
        · simp only [getSimulatedPageNumbers, he2, hguard, hside,
            numbersFirstHalf, numbersSecondHalf, hsp]
          simp [hcount, sideCount, hside, Prod.ext_iff]
          omega
      · have hguard : ((p + 1 : ℕ) : ℤ) - 1
            < (options.numberingStartFromPageIndex : ℤ) := by
          push_cast
          omega
        simp [getSimulatedPageNumbers, hguard, numbersFirstHalf,
          numbersSecondHalf, Nat.not_le.mp hsp, hsp]
    · simp [getSimulatedPageNumbers, he2, numbersFirstHalf, numbersSecondHalf]

/-- Witness for C4: the second source page of a three-page document under
the dual-ratio sample configuration. -/
theorem c4_preview_matches_splitter_witness :
    threePages[1]? = some (Page.mk 100 50)
      ∧ dualRatioOptions.evenSplitRatio = some (3/10)
      ∧ (isVerticalSplitPreview dualRatioOptions.orientation (some (Page.mk 100 50))
            = useVerticalSplit dualRatioOptions (Page.mk 100 50).width
                (Page.mk 100 50).height
          ∧ currentActiveRatio dualRatioOptions.useDualRatios (1 + 1) (3/10)
              dualRatioOptions.splitRatio
            = currentRatio dualRatioOptions 1
          ∧ getSimulatedPageNumbers dualRatioOptions.enablePageNumbering (1 + 1)
                dualRatioOptions.numberingStartFromPageIndex
                dualRatioOptions.startingPageNumber dualRatioOptions.numberingSide
            = (stampNum (outputPages dualRatioOptions twSample threePages)[2 * 1]?,
               stampNum (outputPages dualRatioOptions twSample threePages)[2 * 1 + 1]?)) :=
  ⟨rfl, rfl,
   c4_preview_matches_splitter dualRatioOptions twSample threePages 1
     (Page.mk 100 50) (3/10) rfl rfl⟩

/-- C7 fails on the code: `drawText` coordinates come from
`page.getSize()`, the media box, which `setCropBox` does not change.  On a
forced horizontal split of a 1000 × 700 page the first (upper) copy's crop
window starts at y = 350 while its stamp sits at y = 15, entirely outside
the visible region; on a vertical half split of a 100 × 50 page the first
copy's stamp is centered at x = 50, the full-page center, not at the crop
window's center x = 25. -/
theorem c7_stamps_use_media_box_not_crop_window :
    (∃ pg : OutputPage,
        (outputPages horizontalNumbering twSample [a3Landscape])[0]? = some pg
          ∧ pg.cropBox = Rect.mk 0 350 1000 350
          ∧ pg.stamps.map Stamp.y = [15]
          ∧ (15 : ℚ) < 350)
      ∧ (∃ pg : OutputPage,
          (outputPages numberingOptions twSample threePages)[0]? = some pg
            ∧ pg.cropBox = Rect.mk 0 0 50 50
            ∧ pg.stamps.map (fun s => s.x + s.textW / 2) = [50]
            ∧ pg.cropBox.x + pg.cropBox.w / 2 < 50) := by
  constructor
  · refine ⟨(processPage horizontalNumbering twSample 0 a3Landscape
        horizontalNumbering.startingPageNumber).1, rfl, ?_, ?_, by norm_num⟩
    · rw [processPage_fst_cropBox,
        show useVerticalSplit horizontalNumbering a3Landscape.width a3Landscape.height
          = false from rfl,
        show currentRatio horizontalNumbering 0 = 1/2 from rfl]
      norm_num [cropFirst, a3Landscape, Rect.mk.injEq]
    · rw [processPage_fst_stamps,
        show numbersFirstHalf horizontalNumbering 0 = true from rfl]
      simp
  · refine ⟨(processPage numberingOptions twSample 0 (Page.mk 100 50)
        numberingOptions.startingPageNumber).1, rfl, ?_, ?_, ?_⟩
    · rw [processPage_fst_cropBox,
        show useVerticalSplit numberingOptions (Page.mk 100 50).width
            (Page.mk 100 50).height = true from rfl,
        show currentRatio numberingOptions 0 = 1/2 from rfl]
      norm_num [cropFirst, Rect.mk.injEq]
    · rw [processPage_fst_stamps,
        show numbersFirstHalf numberingOptions 0 = true from rfl]
      norm_num [twSample]
    · rw [processPage_fst_cropBox,
        show useVerticalSplit numberingOptions (Page.mk 100 50).width
            (Page.mk 100 50).height = true from rfl,
        show currentRatio numberingOptions 0 = 1/2 from rfl]
      norm_num [cropFirst]

/-- The nearby true statement: every stamp drawn by the splitter is
horizontally centered on the full media box (text center `mediaW / 2`) and
sits at the fixed height y = 15 of the media box, independent of the crop
window. -/
theorem c7_amended_stamps_centered_on_media_box (options : SplitOptions)
    (textWidthOf : ℤ → ℚ) (i : ℕ) (page : Page) (c : ℤ) :
    (∀ s ∈ (processPage options textWidthOf i page c).1.stamps,
        s.x + s.textW / 2 = page.width / 2 ∧ s.y = 15)
      ∧ (∀ s ∈ (processPage options textWidthOf i page c).2.1.stamps,
        s.x + s.textW / 2 = page.width / 2 ∧ s.y = 15) := by
  constructor
  · intro s hs
    rw [processPage_fst_stamps] at hs
    by_cases hn : numbersFirstHalf options i = true
    · rw [if_pos hn, List.mem_singleton] at hs
      subst hs
      constructor
      · ring
      · rfl
    · rw [if_neg hn] at hs
      simp at hs
  · intro s hs
    rw [processPage_snd_stamps] at hs
    by_cases hn : numbersSecondHalf options i = true
    · rw [if_pos hn, List.mem_singleton] at hs
      subst hs
      constructor
      · ring
      · rfl
    · rw [if_neg hn] at hs
      simp at hs

/-- Witness for the amended C7 statement on a concrete stamped page. -/
theorem c7_amended_stamps_centered_on_media_box_witness :
    Stamp.mk 44 15 12 5
        ∈ (processPage numberingOptions twSample 0 (Page.mk 100 50) 5).1.stamps
      ∧ (Stamp.mk 44 15 12 5).x + (Stamp.mk 44 15 12 5).textW / 2
          = (Page.mk 100 50).width / 2
        ∧ (Stamp.mk 44 15 12 5).y = 15 := by
  have hmem : Stamp.mk 44 15 12 5
      ∈ (processPage numberingOptions twSample 0 (Page.mk 100 50) 5).1.stamps := by
    rw [processPage_fst_stamps,
      show numbersFirstHalf numberingOptions 0 = true from rfl]
    norm_num [twSample, List.mem_singleton, Stamp.mk.injEq]
  exact ⟨hmem,
    (c7_amended_stamps_centered_on_media_box numberingOptions twSample 0
        (Page.mk 100 50) 5).1 (Stamp.mk 44 15 12 5) hmem⟩

end A3ToA4
